import Mathlib

/-!
Shallow embedding of the data-acquisition and caching subsystem of the
lazydynamo repository (Go), covering:

* `internals/tools/dynamo_item_to_map.go` — record serialization
  (`DynamoItemToMap`, `attributeValueToInterface`);
* `internals/tools/filter_tables.go` — table-name filtering (`FilterTables`);
* `internals/tools/manage_cache.go` — on-disk cache (`SaveCache`, `LoadCache`);
* `lazydynamo/view_row_model.go` — key-schema resolution
  (`extractPrimaryKeyAttributes`), continuation-token sanitization
  (`validateExclusiveStartKey`), the parallel segment scan
  (`fetchAndCacheTableData`) and the read-through cache (`fetchAllData`);
* `lazydynamo/constants.go` — `CacheDuration`.

Modelling conventions: Go machine integers are `Nat` (no overflow is relevant
here); `time.Time` values are `Nat` nanosecond counts; fallible Go calls return
`Except String`; the file system, the DynamoDB endpoint and the clock are
explicit parameters (environments); goroutine nondeterminism is abstracted by
treating the order of the per-segment results and of the error channel as the
segment-index order.
-/

namespace LazyDynamo

/-! ### DynamoDB attribute values (`dynamo_item_to_map.go`)

Go `types.AttributeValue` is an open interface with the member variants
matched in `attributeValueToInterface`; the `unknown` constructor models any
dynamic type outside the known variant set (the `default` branch of the Go
switch), carrying the Go type name that `%T` would print. The `l` and `m`
variants nest lists and maps of attribute values, modelled as mutual
inductives so that structural recursion and induction are available. -/

mutual

inductive AttributeValue : Type where
  | s (v : String)
  | n (v : String)
  | bool (v : Bool)
  | ss (v : List String)
  | ns (v : List String)
  | l (v : AttributeValueList)
  | m (v : AttributeValueMap)
  | null
  | b (v : List Nat)
  | bs (v : List (List Nat))
  | unknown (goType : String)

inductive AttributeValueList : Type where
  | nil
  | cons (head : AttributeValue) (tail : AttributeValueList)

inductive AttributeValueMap : Type where
  | nil
  | cons (key : String) (value : AttributeValue) (tail : AttributeValueMap)

end

/- Result values of the Go conversion (`interface` values destined for
JSON encoding): strings, booleans, string lists, nested lists and objects,
null, byte slices and byte-slice lists. -/
mutual

inductive JSONValue : Type where
  | str (v : String)
  | boolVal (v : Bool)
  | strList (v : List String)
  | arr (v : JSONValueList)
  | obj (v : JSONValueObj)
  | nullVal
  | bytes (v : List Nat)
  | bytesList (v : List (List Nat))

inductive JSONValueList : Type where
  | nil
  | cons (head : JSONValue) (tail : JSONValueList)

inductive JSONValueObj : Type where
  | nil
  | cons (key : String) (value : JSONValue) (tail : JSONValueObj)

end

/-- Error message of the `default` branch of the Go switch
(`fmt.Errorf("unsupported AttributeValue type %T", v)`). -/
def unsupportedTypeMsg (goType : String) : String :=
  "unsupported AttributeValue type " ++ goType

/- Embedding of `attributeValueToInterface` (dynamo_item_to_map.go:23-68)
together with its implicit recursions over the `L` list and `M` map variants.
As in Go, the first failing element of a list or map aborts the whole
conversion with the error of that element. -/
mutual

def attributeValueToInterface : AttributeValue → Except String JSONValue
  | .s v => .ok (.str v)
  | .n v => .ok (.str v)
  | .bool v => .ok (.boolVal v)
  | .ss v => .ok (.strList v)
  | .ns v => .ok (.strList v)
  | .l v =>
    match attributeValueListToInterface v with
    | .ok r => .ok (.arr r)
    | .error e => .error e
  | .m v =>
    match attributeValueMapToInterface v with
    | .ok r => .ok (.obj r)
    | .error e => .error e
  | .null => .ok .nullVal
  | .b v => .ok (.bytes v)
  | .bs v => .ok (.bytesList v)
  | .unknown goType => .error (unsupportedTypeMsg goType)

def attributeValueListToInterface : AttributeValueList → Except String JSONValueList
  | .nil => .ok .nil
  | .cons head tail =>
    match attributeValueToInterface head with
    | .error e => .error e
    | .ok v =>
      match attributeValueListToInterface tail with
      | .error e => .error e
      | .ok rest => .ok (.cons v rest)

def attributeValueMapToInterface : AttributeValueMap → Except String JSONValueObj
  | .nil => .ok .nil
  | .cons key value tail =>
    match attributeValueToInterface value with
    | .error e => .error e
    | .ok v =>
      match attributeValueMapToInterface tail with
      | .error e => .error e
      | .ok rest => .ok (.cons key v rest)

end

/-- A raw DynamoDB item (`map[string]types.AttributeValue`), modelled as an
association list; Go map iteration order is abstracted as list order. -/
abbrev DynamoItem := List (String × AttributeValue)

/-- A converted record (`map[string]interface\x7b\x7d`); the later
`json.Marshal` rendering to a string is abstracted away (it cannot fail on
these value shapes). -/
abbrev Row := List (String × JSONValue)

/-- Embedding of `DynamoItemToMap` (dynamo_item_to_map.go:10-21): convert every
entry, aborting with the first conversion error. -/
def DynamoItemToMap : DynamoItem → Except String Row
  | [] => .ok []
  | (k, v) :: rest =>
    match attributeValueToInterface v with
    | .error e => .error e
    | .ok jv =>
      match DynamoItemToMap rest with
      | .error e => .error e
      | .ok tail => .ok ((k, jv) :: tail)

/- Whether an attribute value contains, possibly nested inside lists or maps,
a variant outside the known set (the values on which the Go `default` branch
fires somewhere during conversion). -/
mutual

def hasUnknownValue : AttributeValue → Bool
  | .l v => hasUnknownList v
  | .m v => hasUnknownMap v
  | .unknown _ => true
  | _ => false

def hasUnknownList : AttributeValueList → Bool
  | .nil => false
  | .cons head tail => hasUnknownValue head || hasUnknownList tail

def hasUnknownMap : AttributeValueMap → Bool
  | .nil => false
  | .cons _ value tail => hasUnknownValue value || hasUnknownMap tail

end

/-- Whether some attribute of the item contains an unsupported variant. -/
def itemHasUnknown (item : DynamoItem) : Bool :=
  item.any (fun p => hasUnknownValue p.2)

/-! ### Key schema resolution (`view_row_model.go:414-427`) -/

/-- One element of `tableInfo.Table.KeySchema`. `keyType` is the string-backed
Go enum `types.KeyType` (values `"HASH"` and `"RANGE"`; other strings fall
through the switch). `attributeName` is the dereferenced `*string`; the Go zero
value for a missing write is the empty string. -/
structure KeySchemaElement where
  keyType : String
  attributeName : String
deriving DecidableEq, Repr

/-- One step of the loop body of `extractPrimaryKeyAttributes`: a `HASH`
element overwrites the partition key accumulator, a `RANGE` element overwrites
the sort key accumulator, anything else is skipped. -/
def extractStep (acc : String × Option String) (e : KeySchemaElement) :
    String × Option String :=
  if e.keyType = "HASH" then (e.attributeName, acc.2)
  else if e.keyType = "RANGE" then (acc.1, some e.attributeName)
  else acc

/-- Embedding of `extractPrimaryKeyAttributes` (view_row_model.go:414-427):
fold the loop over the schema starting from the Go zero values
(`partitionKey = ""`, `sortKey = nil`), then fail when the partition key
accumulator is still empty. -/
def extractPrimaryKeyAttributes (keySchema : List KeySchemaElement) :
    Except String (String × Option String) :=
  let acc := keySchema.foldl extractStep ("", none)
  if acc.1 = "" then .error "partition key not found in table schema"
  else .ok acc

/-- Reference function: attribute name of the last element of the given key
type, if any (the loop in the source lets later elements of the same key type
overwrite earlier ones). -/
def lastKeyOfType (t : String) : List KeySchemaElement → Option String
  | [] => none
  | e :: rest =>
    match lastKeyOfType t rest with
    | some name => some name
    | none => if e.keyType = t then some e.attributeName else none

/-! ### Continuation-token sanitization (`view_row_model.go:430-449`) -/

/-- A continuation token (`map[string]types.AttributeValue`), with `none`
for Go `nil`; the map is an association list queried through `List.lookup`. -/
abbrev RawToken := List (String × AttributeValue)

/-- Embedding of `validateExclusiveStartKey` (view_row_model.go:430-449):
`nil` maps to `nil`; otherwise a fresh map is built holding the partition-key
entry of the raw token when present, and the sort-key entry when a sort key
name is given and present. Everything else is dropped. -/
def validateExclusiveStartKey (startKey : Option RawToken) (partitionKey : String)
    (sortKey : Option String) : Option RawToken :=
  match startKey with
  | none => none
  | some sk =>
    let withPk : RawToken :=
      match sk.lookup partitionKey with
      | some v => [(partitionKey, v)]
      | none => []
    let withSk : RawToken :=
      match sortKey with
      | some sortName =>
        match sk.lookup sortName with
        | some v => [(sortName, v)]
        | none => []
      | none => []
    some (withPk ++ withSk)

/-! ### On-disk cache (`manage_cache.go`)

The cache file is modelled as `Option (FileContent ρ)` (`none` = the path does
not exist). `SaveCache` takes a `SaveEnv` of environment failure switches for
its three fallible steps; `os.Create` truncates the file before the JSON
encoder writes, so an encoding failure after a successful create leaves
content that is neither the prior nor the new record (`corrupt`). -/

/-- Content of the cache file path: a fully written record (`data` plus
`updated` timestamp), or truncated/partially written bytes that do not decode
(`corrupt`). -/
inductive FileContent (ρ : Type) where
  | record (data : List ρ) (updated : Nat)
  | corrupt
deriving DecidableEq, Repr

/-- Environment failure switches for the three fallible steps of `SaveCache`:
`os.MkdirAll`, `os.Create` and `json.NewEncoder(file).Encode`. -/
structure SaveEnv where
  mkdirFails : Bool
  createFails : Bool
  encodeFails : Bool
deriving DecidableEq, Repr

/-- Embedding of `SaveCache` (manage_cache.go:33-56). The Go conversion of
`[]list.Item` to `[]string` through `FilterValue` is the identity on the
stored values, so `data` is taken directly. Returns the file state after the
call and the returned `error`. -/
def SaveCache {ρ : Type} (env : SaveEnv) (data : List ρ) (now : Nat)
    (fs : Option (FileContent ρ)) : Option (FileContent ρ) × Option String :=
  if env.mkdirFails then (fs, some "mkdir failed")
  else if env.createFails then (fs, some "create failed")
  else if env.encodeFails then (some .corrupt, some "encode failed")
  else (some (.record data now), none)

/-- Embedding of `LoadCache` (manage_cache.go:16-30): `os.Open` fails when the
path does not exist; JSON decoding fails on content that is not a full
record. -/
def LoadCache {ρ : Type} : Option (FileContent ρ) → Except String (List ρ × Nat)
  | none => .error "open failed"
  | some .corrupt => .error "decode failed"
  | some (.record data updated) => .ok (data, updated)

/-- Embedding of `CacheDuration` (constants.go:19): `72 * time.Hour` in
nanoseconds. -/
def CacheDuration : Nat := 72 * 60 * 60 * 1000000000

/-! ### Parallel segment scan (`view_row_model.go:296-396`)

The DynamoDB endpoint is modelled as, per segment index, the finite sequence
of responses the service returns to the successive `Scan` calls of that
segment worker (each call passes the sanitized continuation token of the
previous page, which selects the next response; the token bookkeeping is
internal to the service and abstracted into the response stream). A response
is either a page of raw items with an optional `LastEvaluatedKey`, or an
error. The shared `allItems` slice and the buffered error channel are
collected in segment-index order, one admissible interleaving of the
goroutines. -/

/-- One `m.client.Scan` response: a page (`Items`, `LastEvaluatedKey`) or an
error. -/
inductive PageResult where
  | ok (items : List DynamoItem) (lastEvaluatedKey : Option RawToken)
  | failure (e : String)

/-- The per-page item transformation of the worker loop
(view_row_model.go:348-362): items whose conversion fails are dropped
(`continue` after a logged warning), the rest are kept in order. -/
def convertPageItems (items : List DynamoItem) : List Row :=
  items.filterMap (fun it => (DynamoItemToMap it).toOption)

/-- One segment worker (the goroutine body, view_row_model.go:328-377): pages
are consumed in order; a failing `Scan` ends the worker, sending the error on
the channel and keeping the rows of the pages already appended; a page without
`LastEvaluatedKey` ends the segment normally. An exhausted response list is
read as the service ending the segment. Returns the rows this worker appended
to the shared slice and the error it sent, if any. -/
def runSegment : List PageResult → List Row × Option String
  | [] => ([], none)
  | .failure e :: _ => ([], some e)
  | .ok items lastKey :: rest =>
    let rows := convertPageItems items
    match lastKey with
    | none => (rows, none)
    | some _ =>
      let (restRows, err) := runSegment rest
      (rows ++ restRows, err)

/-- Embedding of `numSegments := runtime.NumCPU() / 2`
(view_row_model.go:317). -/
def numSegments (numCPU : Nat) : Nat := numCPU / 2

/-- Environment of one `fetchAndCacheTableData` call: the `DescribeTable`
outcome (its key schema on success), the CPU count, the per-segment response
streams, the failure switches for the final `SaveCache`, and the current
time. -/
structure ScanEnv where
  describe : Except String (List KeySchemaElement)
  numCPU : Nat
  pages : Nat → List PageResult
  saveEnv : SaveEnv
  now : Nat

/-- Outcomes of all launched segment workers, in segment-index order. -/
def segmentOutcomes (env : ScanEnv) : List (List Row × Option String) :=
  (List.range (numSegments env.numCPU)).map (fun s => runSegment (env.pages s))

/-- Content of the shared `allItems` slice after `wg.Wait()`, with the
segment-index order as the admissible interleaving. -/
def scanItems (env : ScanEnv) : List Row :=
  ((segmentOutcomes env).map Prod.fst).flatten

/-- Content of the buffered error channel after `close(errChan)`, in
segment-index order. -/
def scanErrors (env : ScanEnv) : List String :=
  (segmentOutcomes env).filterMap Prod.snd

/-- Number of `Scan` calls a worker issues against its response stream. -/
def pagesRead : List PageResult → Nat
  | [] => 0
  | .failure _ :: _ => 1
  | .ok _ none :: _ => 1
  | .ok _ (some _) :: rest => 1 + pagesRead rest

/-- Total number of `Scan` page reads issued by one `fetchAndCacheTableData`
call. -/
def totalPagesRead (env : ScanEnv) : Nat :=
  ((List.range (numSegments env.numCPU)).map (fun s => pagesRead (env.pages s))).sum

/-- The message type returned to the UI: `DataFetchedMsg` or `FetchErrorMsg`. -/
inductive FetchMsg where
  | dataFetched (items : List Row)
  | fetchError (e : String)

/-- Embedding of `fetchAndCacheTableData` (view_row_model.go:296-396):
describe the table, resolve the key schema, run all segment workers, wait,
then read the error channel once — a non-empty channel fails the whole scan
with its first error and the collected rows are discarded; otherwise the rows
are saved to the cache (a save error is only logged) and returned. Returns the
UI message and the cache file state after the call. -/
def fetchAndCacheTableData (env : ScanEnv) (fs : Option (FileContent Row)) :
    FetchMsg × Option (FileContent Row) :=
  match env.describe with
  | .error e => (.fetchError e, fs)
  | .ok keySchema =>
    match extractPrimaryKeyAttributes keySchema with
    | .error e => (.fetchError e, fs)
    | .ok _ =>
      match scanErrors env with
      | e :: _ => (.fetchError e, fs)
      | [] =>
        (.dataFetched (scanItems env), (SaveCache env.saveEnv (scanItems env) env.now fs).1)

/-- Embedding of `fetchAllData` (view_row_model.go:275-293): when the cache
loads and `time.Since(cache.Updated) < CacheDuration` (with `Nat` truncated
subtraction agreeing with the Go comparison also for future timestamps), the
cached rows are returned at once and only a detached background refresh is
started (it does not affect the returned message or the synchronous file
state); otherwise `fetchAndCacheTableData` runs synchronously. The third
component records whether the synchronous fetch ran. -/
def fetchAllData (env : ScanEnv) (fs : Option (FileContent Row)) :
    FetchMsg × Option (FileContent Row) × Bool :=
  match LoadCache fs with
  | .ok (data, updated) =>
    if env.now - updated < CacheDuration then
      (.dataFetched data, fs, false)
    else
      let r := fetchAndCacheTableData env fs
      (r.1, r.2, true)
  | .error _ =>
    let r := fetchAndCacheTableData env fs
    (r.1, r.2, true)

/-! ### Table filtering (`filter_tables.go`)

Go strings are modelled as `List Char` with `strings.ToLower` as
character-wise `Char.toLower` (the byte-wise inner loop of the source
coincides with the character-wise loop on these). -/

/-- The inner matching loop of `FilterTables` (filter_tables.go:16-20): walk
the table name once, advancing a cursor into the filter text on every
character match; the table qualifies when the cursor reaches the end of the
filter text. First argument is the (lowercased) table name, second the
(lowercased) filter text. -/
def subsequenceScan : List Char → List Char → Bool
  | _, [] => true
  | [], _ :: _ => false
  | c :: cs, f :: fs =>
    if f = c then subsequenceScan cs fs else subsequenceScan cs (f :: fs)

/-- Embedding of `FilterTables` (filter_tables.go:7-25): lowercase the filter
text once, keep (in order) the tables whose lowercased name passes the greedy
subsequence scan. -/
def FilterTables (tables : List (List Char)) (filterText : List Char) :
    List (List Char) :=
  let lowered := filterText.map Char.toLower
  tables.filter (fun table => subsequenceScan (table.map Char.toLower) lowered)

/-! ## Theorems -/

theorem subsequenceScan_iff_sublist (t f : List Char) :
    subsequenceScan t f = true ↔ f.Sublist t := by
  induction t generalizing f with
  | nil =>
    cases f with
    | nil => simp [subsequenceScan]
    | cons x xs => simp [subsequenceScan]
  | cons c cs ih =>
    cases f with
    | nil => simp [subsequenceScan, List.nil_sublist]
    | cons x xs =>
      by_cases hx : x = c
      · subst hx
        simp [subsequenceScan, ih, List.cons_sublist_cons]
      · simp only [subsequenceScan, if_neg hx, ih]
        constructor
        · exact fun h => h.cons c
        · intro h
          rcases List.sublist_cons_iff.mp h with h' | ⟨r, hr, _⟩
          · exact h'
          · cases hr
            exact absurd rfl hx

/-- C10: for every list of table names and every filter text, `FilterTables`
returns exactly those tables whose lowercased name contains the lowercased
filter text as a not necessarily contiguous subsequence, preserving the
relative order of the input list (the result is a filter, hence a sublist, of
the input); the empty filter text returns every table unchanged. -/
theorem FilterTables_matches_lower_subsequence
    (tables : List (List Char)) (filterText : List Char) :
    FilterTables tables filterText =
      tables.filter (fun table =>
        decide ((filterText.map Char.toLower).Sublist (table.map Char.toLower))) ∧
    (FilterTables tables filterText).Sublist tables ∧
    FilterTables tables [] = tables := by
  refine ⟨?_, ?_, ?_⟩
  · unfold FilterTables
    refine List.filter_congr ?_
    intro table _
    rw [Bool.eq_iff_iff]
    simp [subsequenceScan_iff_sublist]
  · exact List.filter_sublist _
  · simp [FilterTables, subsequenceScan]


theorem lookup_single (a k : String) (v : AttributeValue) :
    (([(k, v)] : RawToken)).lookup a = if a = k then some v else none := by
  by_cases h : a = k
  · subst h
    simp [List.lookup]
  · have hb : (a == k) = false := beq_eq_false_iff_ne.mpr h
    simp [List.lookup, hb, h]

theorem lookup_pair (a k1 k2 : String) (v w : AttributeValue) :
    (([(k1, v), (k2, w)] : RawToken)).lookup a =
      if a = k1 then some v else if a = k2 then some w else none := by
  by_cases h1 : a = k1
  · subst h1
    simp [List.lookup]
  · have hb1 : (a == k1) = false := beq_eq_false_iff_ne.mpr h1
    by_cases h2 : a = k2
    · subst h2
      simp [List.lookup, hb1, h1]
    · have hb2 : (a == k2) = false := beq_eq_false_iff_ne.mpr h2
      simp [List.lookup, hb1, hb2, h1, h2]

/-- C5: for every raw continuation token and every key schema,
`validateExclusiveStartKey` returns `nil` when the raw token is `nil`, and
otherwise always succeeds with a token whose lookup function keeps exactly the
entries of the raw token named by the partition key or (when present) the sort
key and drops every other attribute. -/
theorem validateExclusiveStartKey_filters_to_key_schema
    (pk : String) (sk : Option String) :
    validateExclusiveStartKey none pk sk = none ∧
    ∀ t : RawToken, ∃ u : RawToken,
      validateExclusiveStartKey (some t) pk sk = some u ∧
      ∀ a : String, u.lookup a =
        if a = pk ∨ sk = some a then t.lookup a else none := by
  refine ⟨rfl, fun t => ⟨_, rfl, fun a => ?_⟩⟩
  cases sk with
  | none =>
    cases hpk : t.lookup pk with
    | none =>
      by_cases ha : a = pk <;> simp [List.lookup, ha, hpk]
    | some v =>
      by_cases ha : a = pk
      · subst ha
        simp [lookup_single, hpk]
      · simp [lookup_single, ha]
  | some sname =>
    by_cases hsp : sname = pk
    · subst hsp
      cases hpk : t.lookup sname with
      | none =>
        by_cases ha : a = sname
        · subst ha
          simp [List.lookup, hpk]
        · simp [List.lookup, ha, Ne.symm ha, hpk]
      | some v =>
        by_cases ha : a = sname
        · subst ha
          simp [lookup_pair, hpk]
        · simp [hpk, lookup_pair, ha, Ne.symm ha]
    · cases hpk : t.lookup pk with
      | none =>
        cases hs : t.lookup sname with
        | none =>
          by_cases ha : a = pk
          · subst ha
            simp [List.lookup, hpk, hs]
          · by_cases ha2 : sname = a
            · subst ha2
              simp [List.lookup, hs, ha]
            · simp [List.lookup, hs, ha, ha2]
        | some w =>
          by_cases ha : a = pk
          · subst ha
            simp [lookup_single, hs, Ne.symm hsp, hpk]
          · by_cases ha2 : sname = a
            · subst ha2
              simp [lookup_single, hs]
            · simp [lookup_single, hs, ha, ha2, Ne.symm ha2]
      | some v =>
        cases hs : t.lookup sname with
        | none =>
          by_cases ha : a = pk
          · subst ha
            simp [lookup_single, hs, hpk]
          · by_cases ha2 : sname = a
            · subst ha2
              simp [lookup_single, hs, hsp]
            · simp [lookup_single, hs, ha, ha2, Ne.symm ha2]
        | some w =>
          by_cases ha : a = pk
          · subst ha
            simp [lookup_pair, hs, hpk, Ne.symm hsp]
          · by_cases ha2 : sname = a
            · subst ha2
              simp [lookup_pair, hs, hsp]
            · simp [lookup_pair, hs, ha, ha2, Ne.symm ha2]

/-- C9: token sanitization is idempotent — sanitizing an already sanitized
token is a no-op, for every raw token (including `nil`, tokens with extra
attributes and tokens with one or both key attributes missing), every
partition key name and every optional sort key name. -/
theorem validateExclusiveStartKey_idempotent
    (t : Option RawToken) (pk : String) (sk : Option String) :
    validateExclusiveStartKey (validateExclusiveStartKey t pk sk) pk sk =
      validateExclusiveStartKey t pk sk := by
  cases t with
  | none => rfl
  | some l =>
    cases sk with
    | none =>
      cases hpk : l.lookup pk with
      | none => simp [validateExclusiveStartKey, hpk, List.lookup]
      | some v => simp [validateExclusiveStartKey, hpk, List.lookup]
    | some sname =>
      by_cases hsp : sname = pk
      · subst hsp
        cases hpk : l.lookup sname with
        | none => simp [validateExclusiveStartKey, hpk, List.lookup]
        | some v => simp [validateExclusiveStartKey, hpk, List.lookup]
      · have hb : (sname == pk) = false := beq_eq_false_iff_ne.mpr hsp
        have hb2 : (pk == sname) = false := beq_eq_false_iff_ne.mpr (Ne.symm hsp)
        cases hpk : l.lookup pk with
        | none =>
          cases hs : l.lookup sname with
          | none => simp [validateExclusiveStartKey, hpk, hs, List.lookup]
          | some w => simp [validateExclusiveStartKey, hpk, hs, List.lookup, hb, hb2]
        | some v =>
          cases hs : l.lookup sname with
          | none => simp [validateExclusiveStartKey, hpk, hs, List.lookup, hb, hb2]
          | some w => simp [validateExclusiveStartKey, hpk, hs, List.lookup, hb, hb2]

theorem foldl_extractStep (ks : List KeySchemaElement) (p : String) (s : Option String) :
    ks.foldl extractStep (p, s) =
      ((lastKeyOfType "HASH" ks).getD p,
       match lastKeyOfType "RANGE" ks with
       | some name => some name
       | none => s) := by
  induction ks generalizing p s with
  | nil => simp [lastKeyOfType]
  | cons e rest ih =>
    simp only [List.foldl_cons, ih]
    by_cases hh : e.keyType = "HASH"
    · cases hlh : lastKeyOfType "HASH" rest <;>
        cases hlr : lastKeyOfType "RANGE" rest <;>
          simp [lastKeyOfType, extractStep, hh, hlh, hlr]
    · by_cases hr : e.keyType = "RANGE"
      · cases hlh : lastKeyOfType "HASH" rest <;>
          cases hlr : lastKeyOfType "RANGE" rest <;>
            simp [lastKeyOfType, extractStep, hh, hr, hlh, hlr]
      · cases hlh : lastKeyOfType "HASH" rest <;>
          cases hlr : lastKeyOfType "RANGE" rest <;>
            simp [lastKeyOfType, extractStep, hh, hr, hlh, hlr]

/-- C6 (amended): `extractPrimaryKeyAttributes` fails with the
missing-partition-key error exactly when the final partition-key accumulator
is empty, that is, when the schema has no `HASH` element or the last `HASH`
element carries an empty attribute name; otherwise it succeeds with the attribute
name of the last `HASH` element as partition key and the attribute name of
the last `RANGE` element (when one exists) as sort key, `nil` otherwise. -/
theorem extractPrimaryKeyAttributes_characterization (ks : List KeySchemaElement) :
    extractPrimaryKeyAttributes ks =
      match lastKeyOfType "HASH" ks with
      | none => .error "partition key not found in table schema"
      | some name =>
        if name = "" then .error "partition key not found in table schema"
        else .ok (name, lastKeyOfType "RANGE" ks) := by
  unfold extractPrimaryKeyAttributes
  rw [foldl_extractStep]
  cases hlh : lastKeyOfType "HASH" ks with
  | none =>
    cases hlr : lastKeyOfType "RANGE" ks <;> simp
  | some name =>
    by_cases hname : name = "" <;>
      cases hlr : lastKeyOfType "RANGE" ks <;> simp [hname]

/-- C6 (counterexample): a key-schema list that does contain a partition-key
(`HASH`) element on which `extractPrimaryKeyAttributes` nevertheless fails —
the claim that failure happens exactly when no `HASH` element is present is
false on the code. -/
theorem extract_fails_despite_hash_element :
    extractPrimaryKeyAttributes [⟨"HASH", ""⟩] =
      .error "partition key not found in table schema" ∧
    (KeySchemaElement.mk "HASH" "") ∈ [KeySchemaElement.mk "HASH" ""] ∧
    (KeySchemaElement.mk "HASH" "").keyType = "HASH" := by
  refine ⟨rfl, ?_, rfl⟩
  simp

/-- C3 (counterexample): with a prior record on disk, a `SaveCache` call whose
file creation succeeds but whose JSON encoding fails leaves the file holding
neither the full prior record nor the full new record — the write is not
atomic, because `os.Create` truncates the prior content before the encoder
runs. -/
theorem SaveCache_encode_failure_breaks_atomicity :
    (SaveCache ⟨false, false, true⟩ ["new"] 5
        (some (FileContent.record ["old"] 0))).1 ≠
      some (FileContent.record ["old"] 0) ∧
    (SaveCache ⟨false, false, true⟩ ["new"] 5
        (some (FileContent.record ["old"] 0))).1 ≠
      some (FileContent.record ["new"] 5) ∧
    (SaveCache ⟨false, false, true⟩ ["new"] 5
        (some (FileContent.record ["old"] 0))).1 ≠ none := by
  refine ⟨?_, ?_, ?_⟩ <;> decide

/-- C3 (amended): `SaveCache` leaves the prior file state unchanged when
directory creation or file creation fails; when every step succeeds the
complete new data list with the new timestamp is visible and no error is
returned; but when file creation succeeds and encoding fails, the file is
left truncated or partially written — neither the prior nor the new record.
Every outcome is one of these three. -/
theorem SaveCache_outcomes {ρ : Type} (env : SaveEnv) (data : List ρ) (now : Nat)
    (fs : Option (FileContent ρ)) :
    ((SaveCache env data now fs).2 = none →
      (SaveCache env data now fs).1 = some (.record data now)) ∧
    (env.mkdirFails = true ∨ env.createFails = true →
      (SaveCache env data now fs).1 = fs ∧ (SaveCache env data now fs).2 ≠ none) ∧
    (env.mkdirFails = false → env.createFails = false → env.encodeFails = true →
      (SaveCache env data now fs).1 = some .corrupt ∧
        (SaveCache env data now fs).2 ≠ none) ∧
    ((SaveCache env data now fs).1 = fs ∨
      (SaveCache env data now fs).1 = some (.record data now) ∨
      (SaveCache env data now fs).1 = some .corrupt) := by
  obtain ⟨m, c, e⟩ := env
  cases m <;> cases c <;> cases e <;> simp [SaveCache]

/-- C3 (witness for the amended theorem): the three outcome classes realized
at concrete inputs. -/
theorem SaveCache_outcomes_witness :
    (SaveCache (ρ := String) ⟨false, false, false⟩ ["new"] 5
        (some (.record ["old"] 0))).1 = some (.record ["new"] 5) ∧
    (SaveCache (ρ := String) ⟨true, false, false⟩ ["new"] 5
        (some (.record ["old"] 0))).1 = some (.record ["old"] 0) ∧
    (SaveCache (ρ := String) ⟨false, false, true⟩ ["new"] 5
        (some (.record ["old"] 0))).1 = some .corrupt := by
  refine ⟨?_, ?_, ?_⟩
  · exact (SaveCache_outcomes ⟨false, false, false⟩ ["new"] 5
      (some (.record ["old"] 0))).1 rfl
  · exact ((SaveCache_outcomes ⟨true, false, false⟩ ["new"] 5
      (some (.record ["old"] 0))).2.1 (Or.inl rfl)).1
  · exact ((SaveCache_outcomes ⟨false, false, true⟩ ["new"] 5
      (some (.record ["old"] 0))).2.2.1 rfl rfl rfl).1

mutual

theorem noUnknownValue_ok (v : AttributeValue) (h : hasUnknownValue v = false) :
    ∃ jv, attributeValueToInterface v = .ok jv := by
  match v with
  | .s w => exact ⟨_, rfl⟩
  | .n w => exact ⟨_, rfl⟩
  | .bool w => exact ⟨_, rfl⟩
  | .ss w => exact ⟨_, rfl⟩
  | .ns w => exact ⟨_, rfl⟩
  | .null => exact ⟨_, rfl⟩
  | .b w => exact ⟨_, rfl⟩
  | .bs w => exact ⟨_, rfl⟩
  | .unknown g => simp [hasUnknownValue] at h
  | .l lv =>
    obtain ⟨r, hr⟩ := noUnknownList_ok lv (by simpa [hasUnknownValue] using h)
    exact ⟨.arr r, by simp [attributeValueToInterface, hr]⟩
  | .m mv =>
    obtain ⟨r, hr⟩ := noUnknownMap_ok mv (by simpa [hasUnknownValue] using h)
    exact ⟨.obj r, by simp [attributeValueToInterface, hr]⟩

theorem noUnknownList_ok (lv : AttributeValueList) (h : hasUnknownList lv = false) :
    ∃ r, attributeValueListToInterface lv = .ok r := by
  match lv with
  | .nil => exact ⟨_, rfl⟩
  | .cons head tail =>
    rw [hasUnknownList, Bool.or_eq_false_iff] at h
    obtain ⟨jv, hjv⟩ := noUnknownValue_ok head h.1
    obtain ⟨r, hr⟩ := noUnknownList_ok tail h.2
    exact ⟨.cons jv r, by simp [attributeValueListToInterface, hjv, hr]⟩

theorem noUnknownMap_ok (mv : AttributeValueMap) (h : hasUnknownMap mv = false) :
    ∃ r, attributeValueMapToInterface mv = .ok r := by
  match mv with
  | .nil => exact ⟨_, rfl⟩
  | .cons key value tail =>
    rw [hasUnknownMap, Bool.or_eq_false_iff] at h
    obtain ⟨jv, hjv⟩ := noUnknownValue_ok value h.1
    obtain ⟨r, hr⟩ := noUnknownMap_ok tail h.2
    exact ⟨.cons key jv r, by simp [attributeValueMapToInterface, hjv, hr]⟩

end

mutual

theorem hasUnknownValue_errors (v : AttributeValue) (h : hasUnknownValue v = true) :
    ∃ goType, attributeValueToInterface v = .error (unsupportedTypeMsg goType) := by
  match v with
  | .s _ | .n _ | .bool _ | .ss _ | .ns _ | .null | .b _ | .bs _ =>
    simp [hasUnknownValue] at h
  | .unknown goType => exact ⟨goType, rfl⟩
  | .l lv =>
    obtain ⟨g, hg⟩ := hasUnknownList_errors lv (by simpa [hasUnknownValue] using h)
    exact ⟨g, by simp [attributeValueToInterface, hg]⟩
  | .m mv =>
    obtain ⟨g, hg⟩ := hasUnknownMap_errors mv (by simpa [hasUnknownValue] using h)
    exact ⟨g, by simp [attributeValueToInterface, hg]⟩

theorem hasUnknownList_errors (lv : AttributeValueList)
    (h : hasUnknownList lv = true) :
    ∃ goType, attributeValueListToInterface lv = .error (unsupportedTypeMsg goType) := by
  match lv with
  | .nil => simp [hasUnknownList] at h
  | .cons head tail =>
    rw [hasUnknownList] at h
    cases hh : hasUnknownValue head with
    | true =>
      obtain ⟨g, hg⟩ := hasUnknownValue_errors head hh
      exact ⟨g, by simp [attributeValueListToInterface, hg]⟩
    | false =>
      have ht : hasUnknownList tail = true := by
        rw [hh] at h
        simpa using h
      obtain ⟨jv, hjv⟩ := noUnknownValue_ok head hh
      obtain ⟨g, hg⟩ := hasUnknownList_errors tail ht
      exact ⟨g, by simp [attributeValueListToInterface, hjv, hg]⟩

theorem hasUnknownMap_errors (mv : AttributeValueMap)
    (h : hasUnknownMap mv = true) :
    ∃ goType, attributeValueMapToInterface mv = .error (unsupportedTypeMsg goType) := by
  match mv with
  | .nil => simp [hasUnknownMap] at h
  | .cons key value tail =>
    rw [hasUnknownMap] at h
    cases hh : hasUnknownValue value with
    | true =>
      obtain ⟨g, hg⟩ := hasUnknownValue_errors value hh
      exact ⟨g, by simp [attributeValueMapToInterface, hg]⟩
    | false =>
      have ht : hasUnknownMap tail = true := by
        rw [hh] at h
        simpa using h
      obtain ⟨jv, hjv⟩ := noUnknownValue_ok value hh
      obtain ⟨g, hg⟩ := hasUnknownMap_errors tail ht
      exact ⟨g, by simp [attributeValueMapToInterface, hjv, hg]⟩

end

theorem itemHasUnknown_errors (item : DynamoItem) (h : itemHasUnknown item = true) :
    ∃ goType, DynamoItemToMap item = .error (unsupportedTypeMsg goType) := by
  induction item with
  | nil => simp [itemHasUnknown] at h
  | cons p rest ih =>
    obtain ⟨k, v⟩ := p
    rw [itemHasUnknown, List.any_cons] at h
    cases hh : hasUnknownValue v with
    | true =>
      obtain ⟨g, hg⟩ := hasUnknownValue_errors v hh
      exact ⟨g, by simp [DynamoItemToMap, hg]⟩
    | false =>
      have ht : itemHasUnknown rest = true := by
        rw [hh] at h
        simpa [itemHasUnknown] using h
      obtain ⟨jv, hjv⟩ := noUnknownValue_ok v hh
      obtain ⟨g, hg⟩ := ih ht
      exact ⟨g, by simp [DynamoItemToMap, hjv, hg]⟩

/-- C7: a record containing an attribute value outside the known variant set
(possibly nested) makes `DynamoItemToMap` return the unsupported-type error
for that single record; in the scan page loop the record is dropped while the
conversion of the remaining records of the page continues, and their converted
rows are what the segment worker contributes to the scan result. -/
theorem unsupported_type_record_dropped (pre post : List DynamoItem)
    (bad : DynamoItem) (hbad : itemHasUnknown bad = true) :
    (∃ goType, DynamoItemToMap bad = .error (unsupportedTypeMsg goType)) ∧
    convertPageItems (pre ++ bad :: post) =
      convertPageItems pre ++ convertPageItems post ∧
    runSegment [.ok (pre ++ bad :: post) none] =
      (convertPageItems pre ++ convertPageItems post, none) := by
  obtain ⟨g, hg⟩ := itemHasUnknown_errors bad hbad
  have hdrop : convertPageItems (pre ++ bad :: post) =
      convertPageItems pre ++ convertPageItems post := by
    simp [convertPageItems, List.filterMap_append, List.filterMap_cons, hg, Except.toOption]
  exact ⟨⟨g, hg⟩, hdrop, by simp [runSegment, hdrop]⟩

/-- C7 (witness): a concrete page holding a well-formed record, a record with
an unsupported attribute type and another well-formed record. -/
theorem unsupported_type_record_dropped_witness :
    itemHasUnknown [("b", AttributeValue.unknown "FooType")] = true ∧
    ((∃ goType, DynamoItemToMap [("b", AttributeValue.unknown "FooType")] =
        .error (unsupportedTypeMsg goType)) ∧
     convertPageItems ([[("a", AttributeValue.s "x")]] ++
         [("b", AttributeValue.unknown "FooType")] :: [[("c", AttributeValue.bool true)]]) =
       convertPageItems [[("a", AttributeValue.s "x")]] ++
         convertPageItems [[("c", AttributeValue.bool true)]] ∧
     runSegment [.ok ([[("a", AttributeValue.s "x")]] ++
         [("b", AttributeValue.unknown "FooType")] :: [[("c", AttributeValue.bool true)]]) none] =
       (convertPageItems [[("a", AttributeValue.s "x")]] ++
         convertPageItems [[("c", AttributeValue.bool true)]], none)) :=
  ⟨rfl, unsupported_type_record_dropped _ _ _ rfl⟩

/-- C1: when the table description and key-schema resolution succeed but at
least one page read of a segment worker returns an error, `fetchAndCacheTableData`
returns a `FetchErrorMsg` carrying the first error read from the error
channel, the cache file is left untouched, and no record collection is
surfaced as success — the rows accumulated by the other workers (and by the
failing worker before its failure) are discarded. -/
theorem scan_error_discards_collected_rows (env : ScanEnv)
    (fs : Option (FileContent Row)) (ks : List KeySchemaElement)
    (pkk : String × Option String) (e : String) (rest : List String)
    (hdesc : env.describe = .ok ks)
    (hext : extractPrimaryKeyAttributes ks = .ok pkk)
    (herr : scanErrors env = e :: rest) :
    fetchAndCacheTableData env fs = (.fetchError e, fs) ∧
    ∀ items, (fetchAndCacheTableData env fs).1 ≠ .dataFetched items := by
  have hmain : fetchAndCacheTableData env fs = (.fetchError e, fs) := by
    simp [fetchAndCacheTableData, hdesc, hext, herr]
  refine ⟨hmain, fun items => ?_⟩
  rw [hmain]
  simp

/-- Concrete two-segment environment in which segment 0 completes fully and
segment 1 fails its only page read. -/
def envWorkerFailure : ScanEnv where
  describe := .ok [⟨"HASH", "id"⟩]
  numCPU := 4
  pages := fun s =>
    if s = 0 then [.ok [[("id", .s "1")]] none] else [.failure "boom"]
  saveEnv := ⟨false, false, false⟩
  now := 7

/-- C1 (witness): the failure of segment 1 makes the whole scan fail with that
error even though segment 0 delivered a full page. -/
theorem scan_error_discards_collected_rows_witness :
    scanErrors envWorkerFailure = "boom" :: [] ∧
    (fetchAndCacheTableData envWorkerFailure none = (.fetchError "boom", none) ∧
     ∀ items,
       (fetchAndCacheTableData envWorkerFailure none).1 ≠ .dataFetched items) :=
  ⟨rfl, scan_error_discards_collected_rows envWorkerFailure none
    [⟨"HASH", "id"⟩] ("id", none) "boom" [] rfl rfl rfl⟩

/-- C2: on a host with a single logical core (`runtime.NumCPU() = 1`) the
segment count `numCPU / 2` is `0`, so no worker is launched, no page read is
ever issued against the table, and — provided describe and key-schema
resolution succeed — the scan returns an empty record set as success and
overwrites the cache with it, regardless of the actual table contents. This
contradicts the specified minimum of one segment. -/
theorem single_cpu_scan_issues_no_page_reads (env : ScanEnv)
    (fs : Option (FileContent Row)) (ks : List KeySchemaElement)
    (pkk : String × Option String)
    (hcpu : env.numCPU = 1)
    (hdesc : env.describe = .ok ks)
    (hext : extractPrimaryKeyAttributes ks = .ok pkk) :
    numSegments env.numCPU = 0 ∧
    totalPagesRead env = 0 ∧
    fetchAndCacheTableData env fs =
      (.dataFetched [], (SaveCache env.saveEnv [] env.now fs).1) := by
  have h0 : numSegments env.numCPU = 0 := by rw [hcpu]; rfl
  have hso : segmentOutcomes env = [] := by simp [segmentOutcomes, h0]
  refine ⟨h0, ?_, ?_⟩
  · simp [totalPagesRead, h0]
  · simp [fetchAndCacheTableData, hdesc, hext, scanErrors, scanItems, hso]

/-- Concrete single-CPU environment over a table that does hold data. -/
def envSingleCpu : ScanEnv where
  describe := .ok [⟨"HASH", "id"⟩]
  numCPU := 1
  pages := fun _ => [.ok [[("id", .s "1")]] none]
  saveEnv := ⟨false, false, false⟩
  now := 7

/-- C2 (witness): with one CPU the scan reads zero pages and reports an empty
table, although the response stream holds a record. -/
theorem single_cpu_scan_issues_no_page_reads_witness :
    envSingleCpu.numCPU = 1 ∧
    (numSegments envSingleCpu.numCPU = 0 ∧
     totalPagesRead envSingleCpu = 0 ∧
     fetchAndCacheTableData envSingleCpu none =
       (.dataFetched [], some (.record [] 7))) :=
  ⟨rfl, single_cpu_scan_issues_no_page_reads envSingleCpu none
    [⟨"HASH", "id"⟩] ("id", none) rfl rfl rfl⟩

theorem fetch_error_preserves_cache (env : ScanEnv) (fs : Option (FileContent Row))
    (e : String) (h : (fetchAndCacheTableData env fs).1 = .fetchError e) :
    (fetchAndCacheTableData env fs).2 = fs := by
  cases hd : env.describe with
  | error e2 => simp [fetchAndCacheTableData, hd]
  | ok ks =>
    cases he : extractPrimaryKeyAttributes ks with
    | error e2 => simp [fetchAndCacheTableData, hd, he]
    | ok pkk =>
      cases hse : scanErrors env with
      | nil => simp [fetchAndCacheTableData, hd, he, hse] at h
      | cons e2 tl => simp [fetchAndCacheTableData, hd, he, hse]

/-- C8: whenever a fetch fails — a describe-table error, a missing partition
key or any segment scan error — the error message is what the caller receives
and the cache file state is exactly what it was before the call, both for a
direct `fetchAndCacheTableData` call and for a `fetchAllData` read-through
that took the synchronous-fetch path. -/
theorem no_cache_write_on_error (env : ScanEnv) (fs : Option (FileContent Row)) :
    (∀ e, (fetchAndCacheTableData env fs).1 = .fetchError e →
       (fetchAndCacheTableData env fs).2 = fs) ∧
    (∀ e, (fetchAllData env fs).1 = .fetchError e →
       (fetchAllData env fs).2.1 = fs) := by
  refine ⟨fun e h => fetch_error_preserves_cache env fs e h, fun e h => ?_⟩
  cases hl : LoadCache fs with
  | ok du =>
    obtain ⟨data, updated⟩ := du
    by_cases hf : env.now - updated < CacheDuration
    · simp [fetchAllData, hl, hf] at h
    · simp only [fetchAllData, hl, if_neg hf]
      exact fetch_error_preserves_cache env fs e
        (by simpa [fetchAllData, hl, hf] using h)
  | error e2 =>
    simp only [fetchAllData, hl]
    exact fetch_error_preserves_cache env fs e
      (by simpa [fetchAllData, hl] using h)

/-- Environment whose table description fails. -/
def envDescribeFailure : ScanEnv where
  describe := .error "describe failed"
  numCPU := 4
  pages := fun _ => []
  saveEnv := ⟨false, false, false⟩
  now := 7

/-- C8 (witness): a failing describe call leaves both an existing (here
corrupt) cache file and a missing cache file untouched. -/
theorem no_cache_write_on_error_witness :
    (fetchAndCacheTableData envDescribeFailure none).1 =
      .fetchError "describe failed" ∧
    (fetchAndCacheTableData envDescribeFailure none).2 = none ∧
    (fetchAllData envDescribeFailure (some .corrupt)).1 =
      .fetchError "describe failed" ∧
    (fetchAllData envDescribeFailure (some .corrupt)).2.1 = some .corrupt :=
  ⟨rfl, (no_cache_write_on_error envDescribeFailure none).1 "describe failed" rfl,
   rfl, (no_cache_write_on_error envDescribeFailure (some .corrupt)).2
     "describe failed" rfl⟩

/-- C4: read-through behaviour of `fetchAllData` with cache duration
`CacheDuration`. A readable cache record updated at `t0` is served directly,
with no synchronous fetch, whenever `now - t0 < CacheDuration`; when the
record is stale (`now - t0 >= CacheDuration`), missing or unreadable, the
fetch pipeline runs synchronously and its outcome is returned; and a
successful synchronous fetch (describe, key schema and every segment
succeeding, with a non-failing file system) persists the fetched rows as the
new cache record timestamped `now` and returns them to the caller. -/
theorem fetchAllData_ttl_behavior (env : ScanEnv) (fs : Option (FileContent Row)) :
    (∀ data updated, LoadCache fs = .ok (data, updated) →
       env.now - updated < CacheDuration →
       fetchAllData env fs = (.dataFetched data, fs, false)) ∧
    (∀ data updated, LoadCache fs = .ok (data, updated) →
       ¬(env.now - updated < CacheDuration) →
       fetchAllData env fs =
         ((fetchAndCacheTableData env fs).1, (fetchAndCacheTableData env fs).2,
           true)) ∧
    (∀ e, LoadCache fs = .error e →
       fetchAllData env fs =
         ((fetchAndCacheTableData env fs).1, (fetchAndCacheTableData env fs).2,
           true)) ∧
    (∀ ks pkk, env.describe = .ok ks → extractPrimaryKeyAttributes ks = .ok pkk →
       scanErrors env = [] → env.saveEnv = ⟨false, false, false⟩ →
       fetchAndCacheTableData env fs =
         (.dataFetched (scanItems env),
          some (.record (scanItems env) env.now))) := by
  refine ⟨?_, ?_, ?_, ?_⟩
  · intro data updated hl hf
    simp [fetchAllData, hl, hf]
  · intro data updated hl hf
    simp [fetchAllData, hl, hf]
  · intro e hl
    simp [fetchAllData, hl]
  · intro ks pkk hd he hse hsave
    simp [fetchAndCacheTableData, hd, he, hse, SaveCache, hsave]

/-- Rows held by the cache record of the C4 witness environments. -/
def cachedRowsW : List Row := [[("z", JSONValue.str "0")]]

/-- Read-through environment observed before the cache record expires. -/
def envFreshRead : ScanEnv where
  describe := .ok [⟨"HASH", "id"⟩]
  numCPU := 4
  pages := fun _ => [.ok [[("id", .s "1")]] none]
  saveEnv := ⟨false, false, false⟩
  now := 12

/-- The same environment observed after the record written at time 10 has
aged exactly `CacheDuration`. -/
def envStaleRead : ScanEnv :=
  { envFreshRead with now := CacheDuration + 10 }

/-- Cache file of the C4 witness: a record written at time 10. -/
def fsCachedW : Option (FileContent Row) := some (.record cachedRowsW 10)

/-- C4 (witness): the fresh read is served from the cache with no synchronous
fetch; the read at exactly the expiry boundary fetches synchronously; a
missing cache file fetches synchronously; and the successful synchronous
fetch persists and returns the scanned rows. -/
theorem fetchAllData_ttl_behavior_witness :
    (LoadCache fsCachedW = .ok (cachedRowsW, 10) ∧
     envFreshRead.now - 10 < CacheDuration ∧
     fetchAllData envFreshRead fsCachedW = (.dataFetched cachedRowsW, fsCachedW, false)) ∧
    (¬(envStaleRead.now - 10 < CacheDuration) ∧
     fetchAllData envStaleRead fsCachedW =
       ((fetchAndCacheTableData envStaleRead fsCachedW).1,
        (fetchAndCacheTableData envStaleRead fsCachedW).2, true)) ∧
    (LoadCache (ρ := Row) none = .error "open failed" ∧
     fetchAllData envStaleRead none =
       ((fetchAndCacheTableData envStaleRead none).1,
        (fetchAndCacheTableData envStaleRead none).2, true)) ∧
    fetchAndCacheTableData envStaleRead fsCachedW =
      (.dataFetched (scanItems envStaleRead),
       some (.record (scanItems envStaleRead) envStaleRead.now)) :=
  ⟨⟨rfl, by decide,
    (fetchAllData_ttl_behavior envFreshRead fsCachedW).1 cachedRowsW 10 rfl (by decide)⟩,
   ⟨by decide,
    (fetchAllData_ttl_behavior envStaleRead fsCachedW).2.1 cachedRowsW 10 rfl (by decide)⟩,
   ⟨rfl,
    (fetchAllData_ttl_behavior envStaleRead none).2.2.1 "open failed" rfl⟩,
   (fetchAllData_ttl_behavior envStaleRead fsCachedW).2.2.2 [⟨"HASH", "id"⟩]
     ("id", none) rfl rfl rfl rfl⟩

end LazyDynamo
